import Mathlib

/-!
Verification of the report-transformation pipeline of `pipeline-cartera`
(`src/app/reportes.py`) against its natural-language specification.

The Python code works on pandas DataFrames; we embed the row-level and
column-level operations the specification talks about as executable Lean
functions over explicit row lists.  Machine floats are modelled by `ℚ`,
nullable cells by `Option`, and spreadsheet cells (which can hold a number,
a text, or NaN) by the inductive type `Cell`.
-/

/-- A spreadsheet cell as pandas sees it: a number, a text, or a null (NaN). -/
inductive Cell where
  | num (q : ℚ)
  | str (s : String)
  | null
deriving DecidableEq, Repr

/-- Python `==` / pandas `isin` equality between cell values: numbers compare
by value, texts by content, a number never equals a text, and NaN equals
nothing (not even itself). -/
def cellEq : Cell → Cell → Bool
  | Cell.num a, Cell.num b => a = b
  | Cell.str a, Cell.str b => a = b
  | _, _ => false

/-- Value of a list of decimal digit characters, most significant first. -/
def digitsVal (l : List Char) : ℕ :=
  l.foldl (fun a c => 10 * a + (c.toNat - 48)) 0

/-- One step of Python `float()` on strings drawn from the character class
`[0-9.]` together with an optional leading sign handled by the caller:
an integer part, optionally a dot and a fractional part; at least one digit
overall, at most one dot.  Returns `none` where `float()` would raise. -/
def parseUnsigned (l : List Char) : Option ℚ :=
  let ip := l.takeWhile Char.isDigit
  let rest := l.dropWhile Char.isDigit
  match rest with
  | [] => if ip.isEmpty then none else some (digitsVal ip : ℚ)
  | c :: fp =>
    if c = Char.ofNat 46 then
      if fp.all Char.isDigit && !(ip.isEmpty && fp.isEmpty) then
        some ((digitsVal ip : ℚ) + (digitsVal fp : ℚ) / ((10 : ℚ) ^ fp.length))
      else none
    else none

/-- Python `\s`-style whitespace. -/
def pyIsSpace (c : Char) : Bool :=
  c = Char.ofNat 32 ∨ c = Char.ofNat 9 ∨ c = Char.ofNat 10 ∨
    c = Char.ofNat 13 ∨ c = Char.ofNat 11 ∨ c = Char.ofNat 12

/-- Python `str.strip()`: drop leading and trailing whitespace. -/
def pyStrip (s : String) : String :=
  String.mk (((s.data.dropWhile pyIsSpace).reverse.dropWhile pyIsSpace).reverse)

/-- `pd.to_numeric(errors='coerce')` on a text cell: trim, optional sign,
then a plain decimal numeral; anything else coerces to NaN (`none`). -/
def parseDec (s : String) : Option ℚ :=
  match (pyStrip s).data with
  | [] => none
  | c :: rest =>
    if c = Char.ofNat 45 then (parseUnsigned rest).map Neg.neg
    else if c = Char.ofNat 43 then parseUnsigned rest
    else parseUnsigned (c :: rest)

/-- `pd.to_numeric(errors='coerce')` on one cell. -/
def toNumeric : Cell → Option ℚ
  | Cell.num q => some q
  | Cell.str s => parseDec s
  | Cell.null => none

/-- Python `int()` / numpy `astype(int)` on a float: truncation toward zero. -/
def pyInt (q : ℚ) : ℤ :=
  Int.tdiv q.num q.den

/-- Base-10 digits of `n`, least significant first; the first argument is
structural fuel (`n` itself suffices since `n / 10 < n` for `n ≠ 0`). -/
def natDigitsRev : ℕ → ℕ → List ℕ
  | 0, _ => []
  | fuel + 1, n => if n = 0 then [] else (n % 10) :: natDigitsRev fuel (n / 10)

/-- Decimal rendering of a natural number (Python `str` on a nonnegative int). -/
def natReprM (n : ℕ) : String :=
  if n = 0 then "0"
  else String.mk ((natDigitsRev n n).reverse.map (fun d => Char.ofNat (48 + d)))

/-- Python `str` on an int. -/
def pyStrOfInt (z : ℤ) : String :=
  if z < 0 then "-" ++ natReprM z.natAbs else natReprM z.natAbs

/-- Python `str.zfill(w)`: left-pad with `'0'` up to width `w`, keeping a
leading sign character in front of the padding. -/
def zfill (w : ℕ) (s : String) : String :=
  if w ≤ s.length then s
  else
    match s.data with
    | [] => String.mk (List.replicate w (Char.ofNat 48))
    | c :: rest =>
      if c = Char.ofNat 45 ∨ c = Char.ofNat 43 then
        String.mk (c :: (List.replicate (w - s.length) (Char.ofNat 48) ++ rest))
      else
        String.mk (List.replicate (w - s.length) (Char.ofNat 48) ++ s.data)

/-- The per-cell body of `standardize_codes` (`reportes.py:74-79`):
`pd.to_numeric(col, errors='coerce').fillna(0).astype(int).astype(str).str.zfill(6)`. -/
def standardize_code (c : Cell) : String :=
  zfill 6 (pyStrOfInt (pyInt ((toNumeric c).getD 0)))

/-- `asignar_rango_mora` (`reportes.py:224-253`): the arrears-age bucket
("PAR") of a days-in-arrears value; `none` models NaN. -/
def asignar_rango_mora (dias_mora : Option ℚ) : String :=
  match dias_mora with
  | none => "0"
  | some d =>
    if d < 1 then "0"
    else if 1 ≤ d ∧ d ≤ 7 then "7"
    else if 8 ≤ d ∧ d ≤ 15 then "15"
    else if 16 ≤ d ∧ d ≤ 30 then "30"
    else if 31 ≤ d ∧ d ≤ 60 then "60"
    else if 61 ≤ d ∧ d ≤ 90 then "90"
    else if 90 < d then ">90"
    else "0"

/-- Sanity: the seven thresholds on concrete inputs. -/
example : asignar_rango_mora (some 3) = "7" := by decide
example : asignar_rango_mora (some 8) = "15" := by decide
example : asignar_rango_mora (some 91) = ">90" := by decide
example : asignar_rango_mora (some (mkRat 15 2)) = "0" := by decide
example : asignar_rango_mora (some (-5)) = "0" := by decide

/-- The 7-bucket aging-amount breakdown of the aggregation engine
(`rangos` dict of `calcular_rangos_mora`, `reportes.py:513-547`). -/
structure Rangos where
  r0 : ℚ
  r1_7 : ℚ
  r8_15 : ℚ
  r16_30 : ℚ
  r31_60 : ℚ
  r61_90 : ℚ
  rMayor90 : ℚ
deriving DecidableEq, Repr

def Rangos.zero : Rangos := ⟨0, 0, 0, 0, 0, 0, 0⟩

/-- Value stored under one of the seven dict keys of `calcular_rangos_mora`. -/
def getRango (rg : Rangos) : String → ℚ
  | "0" => rg.r0
  | "1-7" => rg.r1_7
  | "8-15" => rg.r8_15
  | "16-30" => rg.r16_30
  | "31-60" => rg.r31_60
  | "61-90" => rg.r61_90
  | "Mayor_90" => rg.rMayor90
  | _ => 0

/-- The branch selection of the per-row loop of `calcular_rangos_mora`
(`reportes.py:532-545`): which dict key the row's risk amount is added to,
as a function of the (NaN-defaulted-to-0) days-in-arrears value. -/
def rangoSelect (d : ℚ) : String :=
  if d = 0 then "0"
  else if 1 ≤ d ∧ d ≤ 7 then "1-7"
  else if 8 ≤ d ∧ d ≤ 15 then "8-15"
  else if 16 ≤ d ∧ d ≤ 30 then "16-30"
  else if 31 ≤ d ∧ d ≤ 60 then "31-60"
  else if 61 ≤ d ∧ d ≤ 90 then "61-90"
  else "Mayor_90"

/-- One iteration of the `calcular_rangos_mora` loop: add the row's risk
amount to the bucket selected by its arrears-days value. -/
def bumpRango (rg : Rangos) (d saldo : ℚ) : Rangos :=
  if d = 0 then { rg with r0 := rg.r0 + saldo }
  else if 1 ≤ d ∧ d ≤ 7 then { rg with r1_7 := rg.r1_7 + saldo }
  else if 8 ≤ d ∧ d ≤ 15 then { rg with r8_15 := rg.r8_15 + saldo }
  else if 16 ≤ d ∧ d ≤ 30 then { rg with r16_30 := rg.r16_30 + saldo }
  else if 31 ≤ d ∧ d ≤ 60 then { rg with r31_60 := rg.r31_60 + saldo }
  else if 61 ≤ d ∧ d ≤ 90 then { rg with r61_90 := rg.r61_90 + saldo }
  else { rg with rMayor90 := rg.rMayor90 + saldo }

/-- Correspondence between the bucket labels of `asignar_rango_mora` and the
dict keys of `calcular_rangos_mora` that denote the same arrears-age range. -/
def labelToRango : String → String
  | "0" => "0"
  | "7" => "1-7"
  | "15" => "8-15"
  | "30" => "16-30"
  | "60" => "31-60"
  | "90" => "61-90"
  | ">90" => "Mayor_90"
  | s => s

/-- The arrears-days values on which the §3 thresholds place a row in a
definite delinquency bucket (or in the non-delinquent bucket `0`): NaN,
exactly 0, or a value inside one of the seven threshold ranges. -/
def inRangeRegions (m : Option ℚ) : Prop :=
  m = none ∨ ∃ q, m = some q ∧
    (q = 0 ∨ (1 ≤ q ∧ q ≤ 7) ∨ (8 ≤ q ∧ q ≤ 15) ∨ (16 ≤ q ∧ q ≤ 30) ∨
     (31 ≤ q ∧ q ≤ 60) ∨ (61 ≤ q ∧ q ≤ 90) ∨ 90 < q)

instance (m : Option ℚ) : Decidable (inRangeRegions m) := by
  unfold inRangeRegions
  cases m with
  | none => exact Decidable.isTrue (Or.inl rfl)
  | some q =>
    refine decidable_of_iff
      (q = 0 ∨ (1 ≤ q ∧ q ≤ 7) ∨ (8 ≤ q ∧ q ≤ 15) ∨ (16 ≤ q ∧ q ≤ 30) ∨
        (31 ≤ q ∧ q ≤ 60) ∨ (61 ≤ q ∧ q ≤ 90) ∨ 90 < q) ?_
    constructor
    · intro h; exact Or.inr ⟨q, rfl, h⟩
    · rintro (h | ⟨q', hq', h⟩)
      · exact absurd h (Option.some_ne_none q)
      · cases Option.some.inj hq'; exact h

/-- `bumpRango` really adds to the bucket named by `rangoSelect` and leaves
the other six buckets unchanged. -/
lemma getRango_bumpRango (rg : Rangos) (d s : ℚ) :
    getRango (bumpRango rg d s) (rangoSelect d) = getRango rg (rangoSelect d) + s := by
  unfold bumpRango rangoSelect
  split_ifs <;> rfl

/-- C1: `asignar_rango_mora` is a pure function of the arrears-days value
matching the fixed thresholds: `"7"` on `[1,7]`, `"15"` on `[8,15]`, `"30"`
on `[16,30]`, `"60"` on `[31,60]`, `"90"` on `[61,90]`, `">90"` above 90,
and `"0"` on null, negative, or sub-1 values; in particular
`bucket(null) = bucket(-5) = bucket(0) = "0"`. -/
theorem C1_asignar_rango_mora_thresholds :
    (∀ q : ℚ,
      (1 ≤ q → q ≤ 7 → asignar_rango_mora (some q) = "7") ∧
      (8 ≤ q → q ≤ 15 → asignar_rango_mora (some q) = "15") ∧
      (16 ≤ q → q ≤ 30 → asignar_rango_mora (some q) = "30") ∧
      (31 ≤ q → q ≤ 60 → asignar_rango_mora (some q) = "60") ∧
      (61 ≤ q → q ≤ 90 → asignar_rango_mora (some q) = "90") ∧
      (90 < q → asignar_rango_mora (some q) = ">90") ∧
      (q < 1 → asignar_rango_mora (some q) = "0")) ∧
    asignar_rango_mora none = "0" ∧
    asignar_rango_mora (some (-5)) = "0" ∧
    asignar_rango_mora (some 0) = "0" := by
  refine ⟨fun q => ?_, rfl, by decide, by decide⟩
  refine ⟨fun h1 h2 => ?_, fun h1 h2 => ?_, fun h1 h2 => ?_, fun h1 h2 => ?_,
    fun h1 h2 => ?_, fun h1 => ?_, fun h1 => ?_⟩ <;>
    · simp only [asignar_rango_mora]
      split_ifs <;>
        first
          | rfl
          | (exfalso
             try casesm* _ ∧ _
             try (push_neg at *)
             first
               | linarith
               | (simp_all <;> linarith))

/-- Witness for C1 at concrete inputs. -/
theorem C1_asignar_rango_mora_thresholds_witness :
    asignar_rango_mora (some 45) = "60" ∧ asignar_rango_mora (some 3) = "7" :=
  ⟨(C1_asignar_rango_mora_thresholds.1 45).2.2.2.1 (by norm_num) (by norm_num),
   (C1_asignar_rango_mora_thresholds.1 3).1 (by norm_num) (by norm_num)⟩

/-- C10: a non-integer arrears-days value lying strictly between two adjacent
bucket ranges — in (7,8), (15,16), (30,31) or (60,61) — falls through every
threshold branch of `asignar_rango_mora` and gets the non-delinquent label
`"0"`, not either adjacent delinquency bucket. -/
theorem C10_gap_values_get_zero_label :
    ∀ q : ℚ, ((7 < q ∧ q < 8) ∨ (15 < q ∧ q < 16) ∨ (30 < q ∧ q < 31) ∨
      (60 < q ∧ q < 61)) → asignar_rango_mora (some q) = "0" := by
  intro q hq
  simp only [asignar_rango_mora]
  rcases hq with ⟨h1, h2⟩ | ⟨h1, h2⟩ | ⟨h1, h2⟩ | ⟨h1, h2⟩ <;>
    split_ifs <;>
      first
        | rfl
        | (exfalso
           try casesm* _ ∧ _
           try (push_neg at *)
           first
             | linarith
             | (simp_all <;> linarith))

/-- Witness for C10 at the concrete gap value 7.5. -/
theorem C10_gap_values_get_zero_label_witness :
    asignar_rango_mora (some (mkRat 15 2)) = "0" :=
  C10_gap_values_get_zero_label (mkRat 15 2) (Or.inl ⟨by decide, by decide⟩)

/-- C5 counterexample: at arrears-days value −5 the aggregation engine's
bucket loop increments the `Mayor_90` bucket (the final `else`), while
`asignar_rango_mora` labels the same value `"0"`; so the range incremented by
`calcular_rangos_mora` is not the range labelled by `asignar_rango_mora`. -/
theorem C5_rangos_vs_par_counterexample :
    rangoSelect ((some (-5) : Option ℚ).getD 0) = "Mayor_90" ∧
    labelToRango (asignar_rango_mora (some (-5))) = "0" ∧
    rangoSelect ((some (-5) : Option ℚ).getD 0) ≠
      labelToRango (asignar_rango_mora (some (-5))) ∧
    getRango (bumpRango Rangos.zero (-5) 100) "Mayor_90" = 100 := by
  refine ⟨by decide, by decide, by decide, ?_⟩
  simp only [bumpRango, Rangos.zero, getRango]
  norm_num

set_option maxHeartbeats 2000000 in
/-- C5 amended: the bucket incremented by `calcular_rangos_mora` agrees with
the bucket labelled by `asignar_rango_mora` exactly on NaN, 0, and values
inside the seven threshold ranges; on negative values and on non-integer
values in the gaps between ranges, `calcular_rangos_mora` increments
`Mayor_90` while `asignar_rango_mora` labels the row `"0"`.  In every case
the loop adds the row's risk amount to the bucket chosen by `rangoSelect`. -/
theorem C5_rangos_vs_par_amended :
    ∀ m : Option ℚ,
      (inRangeRegions m →
        rangoSelect (m.getD 0) = labelToRango (asignar_rango_mora m)) ∧
      (¬ inRangeRegions m →
        rangoSelect (m.getD 0) = "Mayor_90" ∧ asignar_rango_mora m = "0") ∧
      (∀ rg s, getRango (bumpRango rg (m.getD 0) s) (rangoSelect (m.getD 0)) =
        getRango rg (rangoSelect (m.getD 0)) + s) := by
  intro m
  refine ⟨?_, ?_, fun rg s => getRango_bumpRango rg (m.getD 0) s⟩
  · intro h
    rcases h with h | ⟨q, rfl, hq⟩
    · subst h; decide
    · simp only [Option.getD, asignar_rango_mora, rangoSelect, labelToRango]
      rcases hq with h | ⟨h1, h2⟩ | ⟨h1, h2⟩ | ⟨h1, h2⟩ | ⟨h1, h2⟩ | ⟨h1, h2⟩ | h1 <;>
        split_ifs <;>
          first
            | rfl
            | (exfalso
               try casesm* _ ∧ _
               try (push_neg at *)
               first
                 | linarith
                 | (simp_all <;> linarith))
  · intro h
    rcases m with _ | q
    · exact absurd (Or.inl rfl) h
    · have hq : ¬ (q = 0 ∨ (1 ≤ q ∧ q ≤ 7) ∨ (8 ≤ q ∧ q ≤ 15) ∨ (16 ≤ q ∧ q ≤ 30) ∨
        (31 ≤ q ∧ q ≤ 60) ∨ (61 ≤ q ∧ q ≤ 90) ∨ 90 < q) := by
        intro hc; exact h (Or.inr ⟨q, rfl, hc⟩)
      push_neg at hq
      obtain ⟨h0, h17, h815, h1630, h3160, h6190, h90⟩ := hq
      constructor
      · simp only [Option.getD, rangoSelect]
        split_ifs <;>
          first
            | rfl
            | (exfalso
               try casesm* _ ∧ _
               try (push_neg at *)
               first
                 | (exact h0 (by assumption))
                 | linarith
                 | (simp_all <;> linarith))
      · simp only [asignar_rango_mora]
        split_ifs <;>
          first
            | rfl
            | (exfalso
               try casesm* _ ∧ _
               try (push_neg at *)
               first
                 | linarith
                 | (simp_all <;> linarith))

/-- Witness for C5 amended: agreement at 45 days, divergence at −5 days. -/
theorem C5_rangos_vs_par_amended_witness :
    rangoSelect ((some (45 : ℚ)).getD 0) =
      labelToRango (asignar_rango_mora (some 45)) ∧
    rangoSelect ((some (-5 : ℚ)).getD 0) = "Mayor_90" ∧
    asignar_rango_mora (some (-5)) = "0" :=
  ⟨(C5_rangos_vs_par_amended (some 45)).1 (by decide),
   (C5_rangos_vs_par_amended (some (-5))).2.1 (by decide)⟩

lemma natDigitsRev_length_le (fuel : ℕ) :
    ∀ n k : ℕ, n < 10 ^ k → (natDigitsRev fuel n).length ≤ k := by
  induction fuel with
  | zero => intro n k _; simp [natDigitsRev]
  | succ f ih =>
    intro n k hn
    unfold natDigitsRev
    split_ifs with h0
    · simp
    · cases k with
      | zero => exact absurd (Nat.lt_one_iff.mp (by simpa using hn)) h0
      | succ k' =>
        have hk : n / 10 < 10 ^ k' := by
          rw [Nat.div_lt_iff_lt_mul (by norm_num)]
          calc n < 10 ^ (k' + 1) := hn
            _ = 10 ^ k' * 10 := by ring
        simpa using Nat.succ_le_succ (ih (n / 10) k' hk)

lemma natDigitsRev_lt_ten (fuel : ℕ) :
    ∀ n d : ℕ, d ∈ natDigitsRev fuel n → d < 10 := by
  induction fuel with
  | zero => intro n d h; simp [natDigitsRev] at h
  | succ f ih =>
    intro n d h
    unfold natDigitsRev at h
    split_ifs at h with h0
    · simp at h
    · rcases List.mem_cons.mp h with h | h
      · exact h ▸ Nat.mod_lt n (by norm_num)
      · exact ih (n / 10) d h

lemma digit_char_isDigit {d : ℕ} (hd : d < 10) : (Char.ofNat (48 + d)).isDigit := by
  interval_cases d <;> decide

lemma natReprM_length_le {n k : ℕ} (hn : n < 10 ^ k) (hk : 0 < k) :
    (natReprM n).length ≤ k := by
  unfold natReprM
  split_ifs with h0
  · simpa using hk
  · show (List.map _ (natDigitsRev n n).reverse).length ≤ k
    rw [List.length_map, List.length_reverse]
    exact natDigitsRev_length_le n n k hn

lemma natReprM_digits {n : ℕ} : ∀ c ∈ (natReprM n).data, c.isDigit := by
  unfold natReprM
  split_ifs with h0
  · decide
  · intro c hc
    show c.isDigit = true
    simp only [String.data] at hc
    rcases List.mem_map.mp hc with ⟨d, hd, rfl⟩
    exact digit_char_isDigit (natDigitsRev_lt_ten n n d (List.mem_reverse.mp hd))

lemma isDigit_ne_sign {c : Char} (h : c.isDigit) :
    ¬ (c = Char.ofNat 45 ∨ c = Char.ofNat 43) := by
  rintro (rfl | rfl) <;> simp [Char.isDigit] at h

/-- `zfill` on a sign-free digit string of length at most `w` yields exactly
`w` digit characters. -/
lemma zfill_digits {w : ℕ} {s : String} (hlen : s.length ≤ w)
    (hd : ∀ c ∈ s.data, c.isDigit) :
    (zfill w s).length = w ∧ ∀ c ∈ (zfill w s).data, c.isDigit := by
  unfold zfill
  split_ifs with hw
  · exact ⟨le_antisymm hlen hw, hd⟩
  · have hslen : s.length = s.data.length := rfl
    match hs : s.data with
    | [] =>
      refine ⟨by simp [String.length], ?_⟩
      intro c hc
      simp only [String.data] at hc
      rcases List.mem_replicate.mp hc with ⟨_, rfl⟩
      decide
    | c :: rest =>
      have hcd : c.isDigit := hd c (by rw [hs]; exact List.mem_cons_self c rest)
      dsimp only
      rw [if_neg (isDigit_ne_sign hcd)]
      have hlen2 : s.length = (c :: rest).length := by rw [hslen, hs]
      constructor
      · show (List.replicate (w - s.length) (Char.ofNat 48) ++ (c :: rest)).length = w
        rw [List.length_append, List.length_replicate, ← hlen2]
        omega
      · intro x hx
        show x.isDigit = true
        simp only [String.data] at hx
        rcases List.mem_append.mp hx with h | h
        · rcases List.mem_replicate.mp h with ⟨_, rfl⟩
          decide
        · exact hd x (hs.symm ▸ h)

/-- C6 counterexample: a numeric identifier with more than six digits is not
stored as "exactly 6 digits" — `standardize_codes` pads with `zfill(6)`,
which only guarantees a minimum width, so 1234567 stays seven digits. -/
theorem C6_standardize_codes_counterexample :
    standardize_code (Cell.num 1234567) = "1234567" ∧
    (standardize_code (Cell.num 1234567)).length ≠ 6 := by decide

/-- C6 amended: after `standardize_codes`, a non-numeric or null identifier
is stored as `"000000"`, and a numeric or text identifier whose coerced,
truncated integer value lies in `[0, 999999]` is stored as exactly 6 digit
characters with leading zeros; identifiers outside that range keep all their
digits (and a sign), `zfill(6)` being only a minimum width. -/
theorem C6_standardize_codes_amended :
    ∀ c : Cell,
      (toNumeric c = none → standardize_code c = "000000") ∧
      (∀ v : ℚ, toNumeric c = some v → 0 ≤ pyInt v → pyInt v < 1000000 →
        (standardize_code c).length = 6 ∧
        ∀ ch ∈ (standardize_code c).data, ch.isDigit) := by
  intro c
  constructor
  · intro h
    simp only [standardize_code, h]
    decide
  · intro v hv h0 hlt
    simp only [standardize_code, hv, Option.getD_some]
    have hz : pyStrOfInt (pyInt v) = natReprM (pyInt v).natAbs := by
      unfold pyStrOfInt
      rw [if_neg (not_lt.mpr h0)]
    rw [hz]
    have habs : (pyInt v).natAbs < 10 ^ 6 := by
      have h' : (pyInt v).natAbs < (1000000 : ℤ).natAbs :=
        Int.natAbs_lt_natAbs_of_nonneg_of_lt h0 hlt
      simpa using h'
    exact zfill_digits (natReprM_length_le habs (by norm_num)) natReprM_digits

/-- Witness for C6 amended: a text identifier `"1053"` is stored as the
six-digit `"001053"`, and a null identifier as `"000000"`. -/
theorem C6_standardize_codes_amended_witness :
    standardize_code Cell.null = "000000" ∧
    (standardize_code (Cell.str "1053")).length = 6 :=
  ⟨(C6_standardize_codes_amended Cell.null).1 rfl,
   ((C6_standardize_codes_amended (Cell.str "1053")).2 1053 (by decide) (by decide)
     (by decide)).1⟩

/-- `p` is a prefix of `l` (character-wise). -/
def leadAgrees : List Char → List Char → Bool
  | [], _ => true
  | _ :: _, [] => false
  | a :: p, b :: l => a = b && leadAgrees p l

/-- `pat` occurs somewhere inside `s` (Python `in` on strings). -/
def occursAt : List Char → List Char → Bool
  | pat, [] => pat.isEmpty
  | pat, l@(_ :: t) => leadAgrees pat l || occursAt pat t

def containsSub (s pat : String) : Bool := occursAt pat.data s.data

/-- The degree / minute / second / hemisphere marker characters of
`generar_link_google_maps` case 3 (`'°'`, `'\x27'`, `'\x22'`, `'N'`, `'W'`,
`'S'`, `'E'`). -/
def hasGeoChar (l : List Char) : Bool :=
  l.any (fun c => c = Char.ofNat 176 || c = Char.ofNat 39 || c = Char.ofNat 34 ||
    c = Char.ofNat 78 || c = Char.ofNat 87 || c = Char.ofNat 83 || c = Char.ofNat 69)

/-- `\d+` (greedy, at least one digit). -/
def spanDigits (l : List Char) : Option (List Char × List Char) :=
  let t := l.takeWhile Char.isDigit
  if t.isEmpty then none else some (t, l.dropWhile Char.isDigit)

/-- `[\d.]+` (greedy, at least one character of the class). -/
def spanNumDot (l : List Char) : Option (List Char × List Char) :=
  let p : Char → Bool := fun c => c.isDigit || c = Char.ofNat 46
  let t := l.takeWhile p
  if t.isEmpty then none else some (t, l.dropWhile p)

/-- `\s+` (greedy, at least one whitespace). -/
def spanSpaces (l : List Char) : Option (List Char × List Char) :=
  let t := l.takeWhile pyIsSpace
  if t.isEmpty then none else some (t, l.dropWhile pyIsSpace)

/-- Consume one literal character. -/
def expectChar (c : Char) : List Char → Option (List Char)
  | [] => none
  | x :: r => if x = c then some r else none

/-- Consume one character of a class. -/
def expectOne (p : Char → Bool) : List Char → Option (Char × List Char)
  | [] => none
  | x :: r => if p x then some (x, r) else none

/-- The captured groups of the coordinate pattern of
`generar_link_google_maps` (`reportes.py:196`):
degrees, minutes, seconds and hemisphere letter for latitude and longitude. -/
structure DMSGroups where
  latDeg : List Char
  latMin : List Char
  latSec : List Char
  latDir : Char
  lonDeg : List Char
  lonMin : List Char
  lonSec : List Char
  lonDir : Char
deriving DecidableEq, Repr

/-- Match the coordinate regex at the head of `l`.  The pattern's greedy
quantifiers never need backtracking here because each character class is
disjoint from the literal that follows it, so a deterministic greedy scan is
equivalent to the regex. -/
def matchDMSPart (dirClass : Char → Bool) (l : List Char) :
    Option ((List Char × List Char × List Char × Char) × List Char) :=
  (spanDigits l).bind fun p1 =>
  (expectChar (Char.ofNat 176) p1.2).bind fun r1 =>
  (spanDigits r1).bind fun p2 =>
  (expectChar (Char.ofNat 39) p2.2).bind fun r2 =>
  (spanNumDot r2).bind fun p3 =>
  (expectChar (Char.ofNat 34) p3.2).bind fun r3 =>
  (expectOne dirClass r3).bind fun p4 =>
  some ((p1.1, p2.1, p3.1, p4.1), p4.2)

def matchDMSAt (l : List Char) : Option DMSGroups :=
  (matchDMSPart (fun c => c = Char.ofNat 78 || c = Char.ofNat 83) l).bind fun lat =>
  (spanSpaces lat.2).bind fun sp =>
  (matchDMSPart (fun c => c = Char.ofNat 87 || c = Char.ofNat 69) sp.2).bind fun lon =>
  some ⟨lat.1.1, lat.1.2.1, lat.1.2.2.1, lat.1.2.2.2,
        lon.1.1, lon.1.2.1, lon.1.2.2.1, lon.1.2.2.2⟩

/-- `re.search`: try the pattern at every start position, first hit wins. -/
def searchDMS : List Char → Option DMSGroups
  | [] => none
  | l@(_ :: t) =>
    match matchDMSAt l with
    | some g => some g
    | none => searchDMS t

/-- Lines 200–211 of `reportes.py`: convert the captured groups to decimal
degrees `deg + min/60 + sec/3600`, negated for the `S` and `W` hemispheres.
`float()` on the `[\d.]+` seconds group can raise (caught by the `except`),
hence the `Option`. -/
def dmsToDec (g : DMSGroups) : Option (ℚ × ℚ) :=
  (parseUnsigned g.latSec).bind fun latSec =>
  (parseUnsigned g.lonSec).bind fun lonSec =>
  let latAbs := (digitsVal g.latDeg : ℚ) + (digitsVal g.latMin : ℚ) / 60 + latSec / 3600
  let lonAbs := (digitsVal g.lonDeg : ℚ) + (digitsVal g.lonMin : ℚ) / 60 + lonSec / 3600
  let lat := if g.latDir = Char.ofNat 83 then -latAbs else latAbs
  let lon := if g.lonDir = Char.ofNat 87 then -lonAbs else lonAbs
  some (lat, lon)

/-- UTF-8 bytes of one character. -/
def utf8Bytes (c : Char) : List ℕ :=
  let n := c.toNat
  if n < 128 then [n]
  else if n < 2048 then [192 + n / 64, 128 + n % 64]
  else if n < 65536 then [224 + n / 4096, 128 + (n / 64) % 64, 128 + n % 64]
  else [240 + n / 262144, 128 + (n / 4096) % 64, 128 + (n / 64) % 64, 128 + n % 64]

def hexUpper (n : ℕ) : Char :=
  if n < 10 then Char.ofNat (48 + n) else Char.ofNat (55 + n)

/-- How `urllib.parse.quote_plus` renders one byte: space becomes `+`,
unreserved bytes stay, everything else is percent-encoded. -/
def quoteByte (b : ℕ) : List Char :=
  if b = 32 then [Char.ofNat 43]
  else if (48 ≤ b ∧ b ≤ 57) ∨ (65 ≤ b ∧ b ≤ 90) ∨ (97 ≤ b ∧ b ≤ 122) ∨
      b = 95 ∨ b = 46 ∨ b = 45 ∨ b = 126 then [Char.ofNat b]
  else [Char.ofNat 37, hexUpper (b / 16), hexUpper (b % 16)]

/-- `urllib.parse.quote_plus`. -/
def quote_plus (s : String) : String :=
  String.mk (((s.data.foldr (fun c acc => utf8Bytes c ++ acc) []).foldr
    (fun b acc => quoteByte b ++ acc) []))

/-- Fixed-point decimal rendering of a nonnegative rational with `k`
fractional digits (truncated). -/
def decimalsOfNonneg (q : ℚ) (k : ℕ) : String :=
  let scaled : ℚ := q * (10 : ℚ) ^ k
  let n : ℕ := scaled.num.toNat / scaled.den
  natReprM (n / 10 ^ k) ++ "." ++ zfill k (natReprM (n % 10 ^ k))

/-- Decimal rendering used when interpolating the converted coordinates into
the f-string URL; stands in for Python's float formatting (the claims
constrain the coordinate values through `dmsToDec`, not this rendering). -/
def qStr (q : ℚ) : String :=
  if q < 0 then "-" ++ decimalsOfNonneg (-q) 9 else decimalsOfNonneg q 9

def urlGenerico : String := "https://maps.google.com"

def searchUrlBase : String := "https://www.google.com/maps/search/?api=1&query="

/-- `generar_link_google_maps` (`reportes.py:171-222`): classify a free-text
location value and emit the `(label, URL)` pair.  `none` models a NaN cell of
the (text) location column. -/
def generar_link_google_maps (geo : Option String) : String × String :=
  match geo with
  | none => ("Ver en mapa", urlGenerico)
  | some s0 =>
    if pyStrip s0 = "" then ("Ver en mapa", urlGenerico)
    else
      let s := pyStrip s0
      if containsSub s "http" || containsSub s "google.com/maps" then
        ("Ver en mapa", s)
      else if hasGeoChar s.data then
        match (searchDMS s.data).bind dmsToDec with
        | some (la, lo) =>
          ("Ver en mapa", searchUrlBase ++ qStr la ++ "," ++ qStr lo)
        | none => ("Ver en mapa", searchUrlBase ++ quote_plus s)
      else ("Ver en mapa", searchUrlBase ++ quote_plus s)

/-- The spec's scenario input `19°12'12.2"N 100°07'51.8"W`, built from
character codes (176 is `°`, 39 is the minutes tick, 34 is the seconds
mark). -/
def dmsTest : String :=
  String.mk ([Char.ofNat 49, Char.ofNat 57, Char.ofNat 176, Char.ofNat 49,
    Char.ofNat 50, Char.ofNat 39, Char.ofNat 49, Char.ofNat 50, Char.ofNat 46,
    Char.ofNat 50, Char.ofNat 34, Char.ofNat 78, Char.ofNat 32, Char.ofNat 49,
    Char.ofNat 48, Char.ofNat 48, Char.ofNat 176, Char.ofNat 48, Char.ofNat 55,
    Char.ofNat 39, Char.ofNat 53, Char.ofNat 49, Char.ofNat 46, Char.ofNat 56,
    Char.ofNat 34, Char.ofNat 87])

/-- C7: `generar_link_google_maps` applies its four classification rules in
fixed priority order with first match winning — blank/null gives the generic
label and map homepage; an `http`/map-domain substring returns the value
itself as URL; a degrees-minutes-seconds coordinate is converted to decimal
degrees `deg + min/60 + sec/3600`, negated for S/W, into a map-search URL;
anything else (including malformed coordinate text, which silently falls
through) becomes a URL-encoded text search.  It never raises — it is total
and always yields the generic label — and on `19°12'12.2"N 100°07'51.8"W`
the resolved query coordinates equal `19.203389,-100.131056` within
`10⁻⁶`. -/
theorem C7_generar_link_google_maps_contract :
    generar_link_google_maps none = ("Ver en mapa", "https://maps.google.com") ∧
    (∀ s, pyStrip s = "" →
      generar_link_google_maps (some s) = ("Ver en mapa", "https://maps.google.com")) ∧
    (∀ s, pyStrip s ≠ "" →
      (containsSub (pyStrip s) "http" || containsSub (pyStrip s) "google.com/maps") = true →
      generar_link_google_maps (some s) = ("Ver en mapa", pyStrip s)) ∧
    (∀ s, pyStrip s ≠ "" →
      (containsSub (pyStrip s) "http" || containsSub (pyStrip s) "google.com/maps") = false →
      (searchDMS (pyStrip s).data).bind dmsToDec = none →
      generar_link_google_maps (some s) =
        ("Ver en mapa", searchUrlBase ++ quote_plus (pyStrip s))) ∧
    (∀ g, (generar_link_google_maps g).1 = "Ver en mapa") ∧
    (∃ la lo : ℚ, (searchDMS dmsTest.data).bind dmsToDec = some (la, lo) ∧
      |la - 19203389/1000000| < 1/1000000 ∧ |lo + 100131056/1000000| < 1/1000000 ∧
      generar_link_google_maps (some dmsTest) =
        ("Ver en mapa", searchUrlBase ++ qStr la ++ "," ++ qStr lo)) := by
  refine ⟨rfl, ?_, ?_, ?_, ?_, ?_⟩
  · intro s h
    simp [generar_link_google_maps, h, urlGenerico]
  · intro s h1 h2
    simp only [generar_link_google_maps, if_neg h1, h2, if_true]
  · intro s h1 h2 h3
    simp only [generar_link_google_maps, if_neg h1, h2, Bool.false_eq_true, if_false, h3]
    split_ifs <;> rfl
  · intro g
    cases g with
    | none => rfl
    | some s0 =>
      simp only [generar_link_google_maps]
      split_ifs <;> try rfl
      rcases hb : (searchDMS (pyStrip s0).data).bind dmsToDec with _ | ⟨la, lo⟩ <;>
        simp [hb]
  · refine ⟨345661/18000, -1802359/18000, by with_unfolding_all rfl, ?_, ?_,
      by with_unfolding_all rfl⟩
    · rw [show |(345661/18000 : ℚ) - 19203389/1000000| = 1/9000000 by
        rw [abs_sub_comm, abs_of_pos] <;> norm_num]
      norm_num
    · rw [show |(-1802359/18000 : ℚ) + 100131056/1000000| = 1/2250000 by
        rw [abs_of_pos] <;> norm_num]
      norm_num

/-- Witness for C7 on concrete inputs: a blank value, an existing-URL value,
and a malformed coordinate text (contains hemisphere letters but no parseable
coordinate) that falls through to the text-search case. -/
theorem C7_generar_link_google_maps_contract_witness :
    generar_link_google_maps (some "  ") = ("Ver en mapa", "https://maps.google.com") ∧
    generar_link_google_maps (some "http://maps.app/x") = ("Ver en mapa", "http://maps.app/x") ∧
    generar_link_google_maps (some "Calle Norte 5") =
      ("Ver en mapa", searchUrlBase ++ quote_plus "Calle Norte 5") :=
  ⟨C7_generar_link_google_maps_contract.2.1 "  " (by with_unfolding_all rfl),
   by
    have h := C7_generar_link_google_maps_contract.2.2.1 "http://maps.app/x"
      (by with_unfolding_all decide) (by with_unfolding_all rfl)
    rw [h]; with_unfolding_all rfl,
   by
    have h := C7_generar_link_google_maps_contract.2.2.2.1 "Calle Norte 5"
      (by with_unfolding_all decide) (by with_unfolding_all rfl)
      (by with_unfolding_all rfl)
    rw [h]; with_unfolding_all rfl⟩

/-- A row as seen by `agregar_columna_concepto_deposito`
(`reportes.py:280-334`): the `Código acreditado` and `Ciclo` cells, both
already text at this point of the pipeline. -/
structure RegCD where
  codigo : String
  ciclo : String
deriving DecidableEq, Repr

/-- `df['Código acreditado'].astype(str).str.strip().str.zfill(6)`. -/
def codKey (r : RegCD) : String := zfill 6 (pyStrip r.codigo)

/-- `df['Ciclo'].astype(str).str.strip().str.zfill(2)`. -/
def cicloStr (r : RegCD) : String := zfill 2 (pyStrip r.ciclo)

/-- `pd.to_numeric(df['Ciclo'], errors='coerce').fillna(0)`. -/
def cicloNum (r : RegCD) : ℚ := (parseDec r.ciclo).getD 0

/-- `concepto_temporal = '1' + codigo + ciclo_str` (`reportes.py:297`). -/
def conceptoTemporal (r : RegCD) : String := "1" ++ codKey r ++ cicloStr r

/-- Maximum of a list of rationals (`Series.max` over a nonempty group). -/
def listMaxQ : List ℚ → ℚ
  | [] => 0
  | x :: xs => xs.foldl max x

/-- `Series.idxmax`: the first position whose cycle value attains the group
maximum (`ciclos_valores.idxmax()`, `reportes.py:310`). -/
def grpFirstMaxIdx (grp : List (ℕ × RegCD)) : ℕ :=
  ((grp.find? fun p =>
      cicloNum p.2 == listMaxQ (grp.map fun x => cicloNum x.2)).map Prod.fst).getD 0

/-- `agregar_columna_concepto_deposito` (`reportes.py:280-334`), restricted
to the computation of the column values: every row gets
`'1' + codigo(6) + ciclo(2)`, except that when several rows share the same
(zero-filled) identifier only the first row attaining the maximum numeric
cycle keeps its code and the other duplicates get the empty string. -/
def agregar_columna_concepto_deposito (rows : List RegCD) : List String :=
  rows.enum.map fun p =>
    let grp := rows.enum.filter fun q => codKey q.2 == codKey p.2
    if 1 < grp.length then
      if p.1 = grpFirstMaxIdx grp then conceptoTemporal p.2 else ""
    else conceptoTemporal p.2

lemma foldl_max_le_iff {l : List ℚ} {a b : ℚ} :
    l.foldl max a ≤ b ↔ a ≤ b ∧ ∀ x ∈ l, x ≤ b := by
  induction l generalizing a with
  | nil => simp
  | cons x xs ih =>
    simp only [List.foldl_cons, ih, max_le_iff, List.mem_cons]
    constructor
    · rintro ⟨⟨h1, h2⟩, h3⟩
      exact ⟨h1, fun y hy => hy.elim (fun e => e ▸ h2) (h3 y)⟩
    · rintro ⟨h1, h2⟩
      exact ⟨⟨h1, h2 x (Or.inl rfl)⟩, fun y hy => h2 y (Or.inr hy)⟩

lemma le_foldl_max_self {l : List ℚ} {a : ℚ} : a ≤ l.foldl max a := by
  induction l generalizing a with
  | nil => simp
  | cons x xs ih => exact le_trans (le_max_left a x) ih

lemma le_foldl_max_of_mem {l : List ℚ} {a x : ℚ} (hx : x ∈ l) :
    x ≤ l.foldl max a := by
  induction l generalizing a with
  | nil => simp at hx
  | cons y ys ih =>
    rcases List.mem_cons.mp hx with rfl | h
    · exact le_trans (le_max_right a x) le_foldl_max_self
    · exact ih h

lemma listMaxQ_eq_of {l : List ℚ} {x : ℚ} (hx : x ∈ l) (hmax : ∀ y ∈ l, y ≤ x) :
    listMaxQ l = x := by
  cases l with
  | nil => simp at hx
  | cons a as =>
    refine le_antisymm ?_ ?_
    · exact foldl_max_le_iff.mpr ⟨hmax a (List.mem_cons_self a as),
        fun y hy => hmax y (List.mem_cons.mpr (Or.inr hy))⟩
    · rcases List.mem_cons.mp hx with rfl | h
      · exact le_foldl_max_self
      · exact le_foldl_max_of_mem h

lemma find?_eq_of_unique {α} (p : α → Bool) {l : List α} {a : α}
    (ha : a ∈ l) (hpa : p a) (huniq : ∀ b ∈ l, p b → b = a) :
    l.find? p = some a := by
  induction l with
  | nil => simp at ha
  | cons x xs ih =>
    by_cases hx : p x
    · rw [List.find?_cons_of_pos _ hx]
      exact congrArg some (huniq x (List.mem_cons_self x xs) hx)
    · rw [List.find?_cons_of_neg _ hx]
      rcases List.mem_cons.mp ha with rfl | h
      · exact absurd hpa hx
      · exact ih h fun b hb hpb => huniq b (List.mem_cons.mpr (Or.inr hb)) hpb

lemma one_lt_length_of_two_mem {α} {l : List α} {a b : α}
    (ha : a ∈ l) (hb : b ∈ l) (hne : a ≠ b) : 1 < l.length := by
  cases l with
  | nil => simp at ha
  | cons x xs =>
    cases xs with
    | nil =>
      simp only [List.mem_singleton] at ha hb
      exact absurd (ha.trans hb.symm) hne
    | cons y ys => simp [List.length]

lemma agregar_concepto_get? (rows : List RegCD) (i : ℕ) (r : RegCD)
    (hi : rows.get? i = some r) :
    (agregar_columna_concepto_deposito rows).get? i =
      some (
        if 1 < (rows.enum.filter fun q => codKey q.2 == codKey r).length then
          if i = grpFirstMaxIdx (rows.enum.filter fun q => codKey q.2 == codKey r)
          then conceptoTemporal r
          else ""
        else conceptoTemporal r) := by
  rw [agregar_columna_concepto_deposito, List.get?_map, List.get?_enum, hi]
  rfl

/-- C8: `agregar_columna_concepto_deposito` gives each row either the code
`"1" + identifier(6) + cycle(2)` or the empty string; a row whose identifier
is unique keeps its code; when several rows share an identifier, the row
whose numeric cycle is strictly greater than every sibling's keeps its
(non-empty) code and every sibling gets the empty string; and on the
concrete scenario — identifier `"001004"` with cycles 1 and 2 — the outputs
are `""` and `"100100402"`. -/
theorem C8_concepto_deposito_max_cycle :
    (∀ rows : List RegCD, ∀ s ∈ agregar_columna_concepto_deposito rows,
      s = "" ∨ ∃ r ∈ rows, s = conceptoTemporal r) ∧
    (∀ rows : List RegCD, ∀ i r, rows.get? i = some r →
      (rows.enum.filter fun q => codKey q.2 == codKey r).length ≤ 1 →
      (agregar_columna_concepto_deposito rows).get? i = some (conceptoTemporal r)) ∧
    (∀ rows : List RegCD, ∀ i r, rows.get? i = some r →
      (∀ k rk, rows.get? k = some rk → k ≠ i → codKey rk = codKey r →
        cicloNum rk < cicloNum r) →
      ∀ j rj, rows.get? j = some rj → codKey rj = codKey r → j ≠ i →
        (agregar_columna_concepto_deposito rows).get? i =
          some (conceptoTemporal r) ∧
        (agregar_columna_concepto_deposito rows).get? j = some "") ∧
    agregar_columna_concepto_deposito
      [RegCD.mk "001004" "1", RegCD.mk "001004" "2"] = ["", "100100402"] ∧
    (∀ r : RegCD, conceptoTemporal r ≠ "") := by
  have hne_temp : ∀ r : RegCD, conceptoTemporal r ≠ "" := by
    intro r h
    have hd := congrArg String.data h
    simp only [conceptoTemporal, String.data_append] at hd
    simp at hd
  refine ⟨?_, ?_, ?_, by with_unfolding_all rfl, hne_temp⟩
  · intro rows s hs
    rcases List.mem_map.mp hs with ⟨p, hp, rfl⟩
    have hpr : p.2 ∈ rows :=
      List.get?_mem (List.mem_enum_iff_get?.mp hp)
    dsimp only
    split_ifs
    · exact Or.inr ⟨p.2, hpr, rfl⟩
    · exact Or.inl rfl
    · exact Or.inr ⟨p.2, hpr, rfl⟩
  · intro rows i r hi hlen
    rw [agregar_concepto_get? rows i r hi, if_neg (not_lt.mpr hlen)]
  · intro rows i r hi hstr j rj hj hkey hne
    have hir : (i, r) ∈ rows.enum := List.mk_mem_enum_iff_get?.mpr hi
    have hjr : (j, rj) ∈ rows.enum := List.mk_mem_enum_iff_get?.mpr hj
    have hirg : (i, r) ∈ rows.enum.filter fun q => codKey q.2 == codKey r :=
      List.mem_filter.mpr ⟨hir, by simp⟩
    have hjrg : (j, rj) ∈ rows.enum.filter fun q => codKey q.2 == codKey r :=
      List.mem_filter.mpr ⟨hjr, by simp [hkey]⟩
    have hlen : 1 < (rows.enum.filter fun q => codKey q.2 == codKey r).length := by
      refine one_lt_length_of_two_mem hirg hjrg fun hc => ?_
      exact hne (congrArg Prod.fst hc).symm
    have hmem : ∀ k rk, (k, rk) ∈ (rows.enum.filter fun q => codKey q.2 == codKey r) →
        rows.get? k = some rk ∧ codKey rk = codKey r := by
      intro k rk hk
      have h1 := List.mem_filter.mp hk
      exact ⟨List.mk_mem_enum_iff_get?.mp h1.1, by simpa using h1.2⟩
    have hmax : listMaxQ ((rows.enum.filter fun q => codKey q.2 == codKey r).map
        fun x => cicloNum x.2) = cicloNum r := by
      apply listMaxQ_eq_of (List.mem_map.mpr ⟨(i, r), hirg, rfl⟩)
      intro y hy
      rcases List.mem_map.mp hy with ⟨⟨k, rk⟩, hk, rfl⟩
      obtain ⟨hget, hck⟩ := hmem k rk hk
      by_cases hki : k = i
      · subst hki
        have : rk = r := Option.some.inj ((hget.symm.trans hi))
        exact this ▸ le_refl _
      · exact le_of_lt (hstr k rk hget hki hck)
    have hfind : (rows.enum.filter fun q => codKey q.2 == codKey r).find?
        (fun p => cicloNum p.2 ==
          listMaxQ ((rows.enum.filter fun q => codKey q.2 == codKey r).map
            fun x => cicloNum x.2)) = some (i, r) := by
      apply find?_eq_of_unique _ hirg (by simp [hmax])
      rintro ⟨k, rk⟩ hk hpk
      obtain ⟨hget, hck⟩ := hmem k rk hk
      rw [hmax] at hpk
      have heq : cicloNum rk = cicloNum r := by simpa using hpk
      by_cases hki : k = i
      · subst hki
        have : rk = r := Option.some.inj ((hget.symm.trans hi))
        rw [this]
      · exact absurd heq (ne_of_lt (hstr k rk hget hki hck))
    have hidx : grpFirstMaxIdx (rows.enum.filter fun q => codKey q.2 == codKey r) = i := by
      rw [grpFirstMaxIdx, hfind]
      rfl
    have hsame : (rows.enum.filter fun q => codKey q.2 == codKey rj) =
        (rows.enum.filter fun q => codKey q.2 == codKey r) :=
      List.filter_congr fun a _ => by simp [hkey]
    constructor
    · rw [agregar_concepto_get? rows i r hi, if_pos hlen, if_pos hidx.symm]
    · rw [agregar_concepto_get? rows j rj hj]
      rw [hsame, if_pos hlen, if_neg]
      rw [hidx]
      exact hne

/-- Witness for C8: in a three-row ledger with identifiers
`001004` (cycles 1 and 2) and `001005` (unique), only the cycle-2 duplicate
keeps a code and the unique row keeps its own. -/
theorem C8_concepto_deposito_max_cycle_witness :
    (agregar_columna_concepto_deposito
      [RegCD.mk "001004" "1", RegCD.mk "001004" "2", RegCD.mk "001005" "1"]).get? 1 =
      some "100100402" ∧
    (agregar_columna_concepto_deposito
      [RegCD.mk "001004" "1", RegCD.mk "001004" "2", RegCD.mk "001005" "1"]).get? 0 =
      some "" ∧
    (agregar_columna_concepto_deposito
      [RegCD.mk "001004" "1", RegCD.mk "001004" "2", RegCD.mk "001005" "1"]).get? 2 =
      some "100100501" := by
  have hstr : ∀ k rk,
      ([RegCD.mk "001004" "1", RegCD.mk "001004" "2",
        RegCD.mk "001005" "1"] : List RegCD).get? k = some rk → k ≠ 1 →
      codKey rk = codKey (RegCD.mk "001004" "2") →
      cicloNum rk < cicloNum (RegCD.mk "001004" "2") := by
    intro k rk hget hki hck
    obtain _ | (_ | (_ | k)) := k
    · obtain rfl := Option.some.inj hget
      with_unfolding_all decide
    · exact absurd rfl hki
    · obtain rfl := Option.some.inj hget
      exact absurd hck (by with_unfolding_all decide)
    · exact Option.noConfusion hget
  have hdup := C8_concepto_deposito_max_cycle.2.2.1
    [RegCD.mk "001004" "1", RegCD.mk "001004" "2", RegCD.mk "001005" "1"]
    1 (RegCD.mk "001004" "2") (by with_unfolding_all rfl) hstr
    0 (RegCD.mk "001004" "1") (by with_unfolding_all rfl)
    (by with_unfolding_all rfl) (by decide)
  refine ⟨?_, hdup.2, ?_⟩
  · have h := hdup.1
    rw [h]
    with_unfolding_all rfl
  · have h := C8_concepto_deposito_max_cycle.2.1
      [RegCD.mk "001004" "1", RegCD.mk "001004" "2", RegCD.mk "001005" "1"]
      2 (RegCD.mk "001005" "1") (by with_unfolding_all rfl)
      (by with_unfolding_all decide)
    rw [h]
    with_unfolding_all rfl

/-- One data row of the uploaded ledger, restricted to the columns the claims
are about.  Monetary and arrears fields are nullable (`none` is NaN); the
identifier and grouping columns hold raw cells (number, text, or NaN). -/
structure Row where
  codigo : Cell
  diasMora : Option ℚ
  coordinacion : Cell
  codigoRec : Cell
  nombreRec : Cell
  cantidadPrestada : Option ℚ
  saldoCapital : Option ℚ
  saldoVencido : Option ℚ
  saldoTotal : Option ℚ
deriving DecidableEq, Repr

/-- The loaded spreadsheet: its (cleaned) header names and its rows. -/
structure DataFrame where
  cols : List String
  rows : List Row
deriving Repr

/-- The static fraud-exclusion list (`config.py:37-42`). -/
def LISTA_FRAUDE : List String :=
  ["001041", "001005", "001023", "001018", "001014", "001024", "001025",
   "001042", "001019", "001026", "001048", "001049", "001050", "001051",
   "001028", "001002", "001008", "001034", "001010", "001045", "001044",
   "001029", "001007", "001032", "001022", "001000", "001040"]

/-- The declared required columns (`reportes.py:1099`, via `COLUMN_MAPPING`). -/
def required_columns : List String :=
  ["Código acreditado", "Días de mora", "Coordinación"]

/-- Line 1081: `df[~df['Código acreditado'].isin(codigos_a_excluir)]` —
the caller-supplied exclusion filter, applied to the RAW identifier cells. -/
def exclFilter (excl : List Cell) (rows : List Row) : List Row :=
  rows.filter fun r => !(excl.any fun c => cellEq r.codigo c)

/-- Line 1107: `standardize_codes` on the identifier columns. -/
def standardizeRow (r : Row) : Row :=
  { r with codigo := Cell.str (standardize_code r.codigo),
           codigoRec := Cell.str (standardize_code r.codigoRec) }

/-- Line 1112: `df[~df[columna_codigo].isin(LISTA_FRAUDE)]` — the static
fraud filter, applied after standardization. -/
def fraude_filter (rows : List Row) : List Row :=
  rows.filter fun r => !(LISTA_FRAUDE.any fun f => cellEq r.codigo (Cell.str f))

/-- A single apostrophe, as Python places around strings in a list repr. -/
def aposS : String := String.mk [Char.ofNat 39]

/-- Python `repr` of a list of strings, as an f-string interpolates it. -/
def pyReprList : List String → String
  | [] => ""
  | [s] => aposS ++ s ++ aposS
  | s :: rest => aposS ++ s ++ aposS ++ ", " ++ pyReprList rest

def pyReprStrList (l : List String) : String := "[" ++ pyReprList l ++ "]"

/-- Validation plus the post-normalization filters: lines 1098-1114 of
`procesar_reporte_antiguedad`.  The `ValueError` of line 1102 is re-raised by
the handler at line 2580 with the "Error al leer el archivo Excel" prefix,
its message still naming the missing columns. -/
def procesar_core (cols : List String) (rows : List Row) : Except String (List Row) :=
  if (required_columns.filter fun c => !(cols.contains c)).isEmpty then
    Except.ok (fraude_filter (rows.map standardizeRow))
  else
    Except.error
      ("Error al leer el archivo Excel. Verifique que sea un archivo válido: " ++
        "Columnas requeridas no encontradas: " ++
        pyReprStrList (required_columns.filter fun c => !(cols.contains c)))

/-- Data path of `procesar_reporte_antiguedad` (`reportes.py:1062-1114`) up
to the filtered dataset `df_filtrado`: the optional caller-supplied
exclusion filter runs first, on the raw identifier cells (line 1081, a
`KeyError` re-raised by the line-2586 handler when the identifier column is
missing), then the required-column validation, then `standardize_codes`,
then the static fraud filter. -/
def procesar_reporte_antiguedad (df : DataFrame)
    (codigos_a_excluir : Option (List Cell)) : Except String (List Row) :=
  match codigos_a_excluir with
  | none => procesar_core df.cols df.rows
  | some l =>
    if l.isEmpty then procesar_core df.cols df.rows
    else if df.cols.contains "Código acreditado" then
      procesar_core df.cols (exclFilter l df.rows)
    else
      Except.error
        ("Error inesperado procesando archivo: " ++ aposS ++ "Código acreditado" ++ aposS)

/-- A row surviving both exclusion filters: its raw identifier matches no
caller-supplied exclusion cell and its standardized identifier is not in the
static fraud list. -/
def survivesRaw (codigos_a_excluir : Option (List Cell)) (r : Row) : Bool :=
  (match codigos_a_excluir with
   | none => true
   | some l =>
     if l.isEmpty then true else !(l.any fun c => cellEq r.codigo c)) &&
  !(LISTA_FRAUDE.any fun f => cellEq (standardizeRow r).codigo (Cell.str f))

/-- A row enriched with the derived PAR column. -/
structure RowP extends Row where
  par : String
deriving DecidableEq, Repr

/-- `add_par_column` (`reportes.py:99-126`), restricted to the column values:
`df['PAR'] = df[mora_column].apply(asignar_rango_mora)`. -/
def add_par_column (rows : List Row) : List RowP :=
  rows.map fun r => { r with par := asignar_rango_mora r.diasMora }

/-- `sort_values(by=mora, ascending=False)` comparison: descending by
arrears days, NaN after every number. -/
def moraDescLe (a b : Row) : Bool :=
  match a.diasMora, b.diasMora with
  | some x, some y => decide (y ≤ x)
  | some _, none => true
  | none, some _ => false
  | none, none => true

def insertDesc (r : Row) : List Row → List Row
  | [] => [r]
  | x :: xs => if moraDescLe r x then r :: x :: xs else x :: insertDesc r xs

/-- Stable stand-in for `sort_values` (the claims below never depend on row
order, only on the multiset of rows). -/
def sortPorMora (rows : List Row) : List Row := rows.foldr insertDesc []

/-- `df_completo` (`reportes.py:1144-1146`): sort the filtered rows by
arrears days and derive the PAR column — derived columns are computed only
after both exclusion filters. -/
def crear_informe_completo (rows : List Row) : List RowP :=
  add_par_column (sortPorMora rows)

lemma filter_map_filter (rows : List Row) (p : Row → Bool) (m : Row → Row)
    (q : Row → Bool) :
    ((rows.filter p).map m).filter q =
      (rows.filter fun r => p r && q (m r)).map m := by
  induction rows with
  | nil => rfl
  | cons r t ih =>
    by_cases hp : p r
    · by_cases hq : q (m r) <;>
        simp [List.filter_cons, List.map_cons, hp, hq, ih]
    · simp [List.filter_cons, hp, ih]

lemma map_filter_fixed {α} (P : α → Bool) (g : α → α)
    (h1 : ∀ r, P r = true → g r = r) (h2 : ∀ r, P r = false → P (g r) = false)
    (rows : List α) :
    (rows.map g).filter P = rows.filter P := by
  induction rows with
  | nil => rfl
  | cons r t ih =>
    by_cases hp : P r
    · have hg : g r = r := h1 r hp
      simp [List.map_cons, List.filter_cons, hg, hp, ih]
    · have hg : P (g r) = false := h2 r (Bool.of_not_eq_true hp)
      simp [List.map_cons, List.filter_cons, hp, hg, ih]

lemma mem_insertDesc {a r : Row} {l : List Row} :
    a ∈ insertDesc r l ↔ a = r ∨ a ∈ l := by
  induction l with
  | nil => simp [insertDesc]
  | cons x xs ih =>
    simp only [insertDesc]
    split_ifs <;> simp [ih] <;> tauto

lemma mem_sortPorMora {a : Row} {rows : List Row} :
    a ∈ sortPorMora rows ↔ a ∈ rows := by
  induction rows with
  | nil => simp [sortPorMora]
  | cons r t ih =>
    simp only [sortPorMora, List.foldr_cons] at *
    rw [mem_insertDesc, ih, List.mem_cons]

/-- The raw data row used by the C2 counterexample: its identifier cell is
the bare number 1053. -/
def row1053 : Row :=
  ⟨Cell.num 1053, some 5, Cell.str "Norte", Cell.null, Cell.null,
    some 1000, some 500, some 100, some 600⟩

/-- C2 counterexample: with the caller-supplied exclusion list containing
only the zero-padded string `"001053"`, a row whose raw identifier cell is
the bare number 1053 is NOT removed by `procesar_reporte_antiguedad` — the
caller filter runs on the raw cells before the 6-digit normalization, so the
padded-string form fails to match (while passing the bare number 1053 does
remove the row). -/
lemma procesar_core_ok {cols : List String} {rows out : List Row}
    (h : procesar_core cols rows = Except.ok out) :
    out = fraude_filter (rows.map standardizeRow) := by
  unfold procesar_core at h
  split_ifs at h with hmiss
  exact (Except.ok.inj h).symm

set_option maxRecDepth 8192 in
theorem C2_exclusion_before_normalization_counterexample :
    standardize_code (Cell.num 1053) = "001053" ∧
    procesar_reporte_antiguedad
      ⟨["Código acreditado", "Días de mora", "Coordinación"], [row1053]⟩
      (some [Cell.str "001053"]) = Except.ok [standardizeRow row1053] ∧
    (standardizeRow row1053).codigo = Cell.str "001053" ∧
    procesar_reporte_antiguedad
      ⟨["Código acreditado", "Días de mora", "Coordinación"], [row1053]⟩
      (some [Cell.num 1053]) = Except.ok [] := by
  refine ⟨by with_unfolding_all rfl, by with_unfolding_all rfl,
    by with_unfolding_all rfl, by with_unfolding_all rfl⟩

/-- C2 amended: in `procesar_reporte_antiguedad` the caller-supplied
exclusion list is applied to the RAW identifier cells, before the 6-digit
normalization (so a caller value removes a row only when it equals the raw
representation, which is why callers pass both the padded string and the
bare integer), while the static fraud list is applied after normalization;
both filters run before the PAR derived column is computed. -/
theorem C2_exclusion_order_amended :
    (∀ (cols : List String) (rows : List Row) (l : List Cell) (out : List Row),
      ¬ l.isEmpty = true →
      procesar_reporte_antiguedad ⟨cols, rows⟩ (some l) = Except.ok out →
      cols.contains "Código acreditado" = true ∧
      out = fraude_filter ((exclFilter l rows).map standardizeRow)) ∧
    (∀ (l : List Cell) (r : Row),
      exclFilter l [r] =
        if l.any fun c => cellEq r.codigo c then [] else [r]) ∧
    (∀ (df : DataFrame) (excl : Option (List Cell)) (out : List Row),
      procesar_reporte_antiguedad df excl = Except.ok out →
      ∀ r ∈ out, (LISTA_FRAUDE.any fun f => cellEq r.codigo (Cell.str f)) = false) ∧
    (∀ rows : List Row, ∀ rp ∈ crear_informe_completo rows,
      rp.toRow ∈ rows ∧ rp.par = asignar_rango_mora rp.toRow.diasMora) := by
  refine ⟨?_, ?_, ?_, ?_⟩
  · intro cols rows l out hl hok
    simp only [procesar_reporte_antiguedad] at hok
    rw [if_neg hl] at hok
    by_cases hc : cols.contains "Código acreditado"
    · rw [if_pos hc] at hok
      exact ⟨hc, procesar_core_ok hok⟩
    · rw [if_neg hc] at hok
      exact absurd hok (by simp)
  · intro l r
    simp only [exclFilter, List.filter]
    by_cases h : l.any fun c => cellEq r.codigo c <;> simp [h]
  · intro df excl out hok r hr
    have hform : ∃ base : List Row, out = fraude_filter (base.map standardizeRow) := by
      rcases excl with _ | l
      · exact ⟨df.rows, procesar_core_ok hok⟩
      · simp only [procesar_reporte_antiguedad] at hok
        by_cases hl : l.isEmpty
        · rw [if_pos hl] at hok
          exact ⟨df.rows, procesar_core_ok hok⟩
        · rw [if_neg hl] at hok
          by_cases hc : df.cols.contains "Código acreditado"
          · rw [if_pos hc] at hok
            exact ⟨exclFilter l df.rows, procesar_core_ok hok⟩
          · rw [if_neg hc] at hok
            exact absurd hok (by simp)
    obtain ⟨base, rfl⟩ := hform
    have := List.mem_filter.mp hr
    simpa using this.2
  · intro rows rp hrp
    rcases List.mem_map.mp hrp with ⟨r, hmem, rfl⟩
    exact ⟨mem_sortPorMora.mp hmem, rfl⟩

/-- Witness for C2 amended at the counterexample dataframe. -/
theorem C2_exclusion_order_amended_witness :
    procesar_reporte_antiguedad
      ⟨["Código acreditado", "Días de mora", "Coordinación"], [row1053]⟩
      (some [Cell.str "001053"]) =
      Except.ok (fraude_filter ((exclFilter [Cell.str "001053"] [row1053]).map
        standardizeRow)) ∧
    exclFilter [Cell.str "001053"] [row1053] =
      (if [Cell.str "001053"].any fun c => cellEq row1053.codigo c then []
       else [row1053]) := by
  have h := (C2_exclusion_order_amended.1
    ["Código acreditado", "Días de mora", "Coordinación"] [row1053]
    [Cell.str "001053"]
    (fraude_filter ((exclFilter [Cell.str "001053"] [row1053]).map standardizeRow))
    (by decide) (by with_unfolding_all rfl)).2
  exact ⟨by rw [← h]; with_unfolding_all rfl,
    C2_exclusion_order_amended.2.1 [Cell.str "001053"] row1053⟩
